import Mathlib

/-!
Shallow embedding of the GL texture resource manager ("GLTexture.cc",
src/unnamed/part_004) of the Imagine / emu-ex-plus-alpha codebase, together
with theorems checking the natural-language specification against it.

Device-side state is not modelled; instead every operation returns, next to
the updated `Texture` record, the list of device commands it enqueues on the
render thread, as an explicit `List GLCmd`.  Host memory allocation is passed
in as an explicit `malloc` function so that allocation failure is expressible.
-/

namespace IG.Gfx

/-- Pixel format. The claims under study depend only on its byte width,
so the format enumeration is abstracted to that single field. -/
structure PixelFormat where
  bytesPerPixel : Nat
deriving DecidableEq, Repr

/-- `PixelFormat::pixelBytes(n)`: byte extent of `n` pixels. -/
def PixelFormat.pixelBytes (f : PixelFormat) (pixels : Nat) : Nat :=
  f.bytesPerPixel * pixels

/-- `PixmapDesc`: width, height and pixel format of an image. -/
structure PixmapDesc where
  w : Nat
  h : Nat
  format : PixelFormat
deriving DecidableEq, Repr

/-- Modelled from the spec: a read-only pixel view (`PixmapView` of the
imagine pixmap library, whose source is not under src/). It carries the
image dimensions and format, the address of the first byte, the row pitch
in bytes, and the byte contents as a function from byte offset to value. -/
structure PixmapView where
  w : Nat
  h : Nat
  format : PixelFormat
  dataAddr : Nat
  pitchBytes : Nat
  byte : Nat → Nat

/-- Modelled from the spec: a pixmap is padded when its row stride exceeds
the packed row size, i.e. stride differs from width times bytes per pixel. -/
def PixmapView.isPadded (p : PixmapView) : Bool :=
  p.pitchBytes != p.w * p.format.bytesPerPixel

/-- Modelled from the spec: pitch measured in whole pixels. -/
def PixmapView.pitchPixels (p : PixmapView) : Nat :=
  p.pitchBytes / p.format.bytesPerPixel

/-- `IG::WindowRect` with exclusive lower-right corner, as used by the
texture code: the full rectangle of a level is `(0, 0, w, h)`. -/
structure WindowRect where
  x : Nat
  y : Nat
  x2 : Nat
  y2 : Nat
deriving DecidableEq, Repr

def WindowRect.xSize (r : WindowRect) : Nat := r.x2 - r.x

def WindowRect.ySize (r : WindowRect) : Nat := r.y2 - r.y

/-- `TextureSizeSupport` (part_004 line 851 context): only the
`nonPow2CanMipmap` capability participates in `supportsMipmaps`. -/
structure TextureSizeSupport where
  nonPow2CanMipmap : Bool
deriving DecidableEq, Repr

/-- The backend capability flags read by the texture code. -/
structure DriverSupport where
  hasImmutableTexStorage : Bool
  hasUnpackRowLength : Bool
  textureSizeSupport : TextureSizeSupport
deriving DecidableEq, Repr

/-- Modelled from the spec: `IG::isPowerOf2` from imagine/util/math/int.hh
(not under src/), the standard single-bit test. -/
def isPowerOf2 (n : Nat) : Bool :=
  n != 0 && (n &&& (n - 1)) == 0

/-- `TextureSizeSupport::supportsMipmaps` (part_004 lines 851-855). -/
def TextureSizeSupport.supportsMipmaps (s : TextureSizeSupport) (imageX imageY : Nat) : Bool :=
  imageX != 0 && imageY != 0 &&
    (s.nonPow2CanMipmap || (isPowerOf2 imageX && isPowerOf2 imageY))

/-- Modelled from the spec: `fls` (find last set) from imagine/util/math/int.hh
(not under src/): the 1-based index of the highest set bit, i.e.
`floor(log2 n) + 1` for positive `n`, and `0` for `n = 0`. -/
def fls (n : Nat) : Nat :=
  if n = 0 then 0 else Nat.log2 n + 1

/-- The lookup table of `makeUnpackAlignment` (part_004 lines 74-82). -/
def alignMap : List Nat := [8, 1, 2, 1, 4, 1, 2, 1]

/-- `makeUnpackAlignment` (part_004 lines 74-82): best unpack alignment
from the low 3 bits of an address. -/
def makeUnpackAlignment (addr : Nat) : Nat :=
  alignMap.getD (addr &&& 7) 1

/-- `unpackAlignForAddrAndPitch` (part_004 lines 84-94). -/
def unpackAlignForAddrAndPitch (srcAddr : Nat) (pitch : Nat) : Nat :=
  min (makeUnpackAlignment pitch) (makeUnpackAlignment srcAddr)

/-- The mutable fields of `Texture`/`GLTexture` relevant to the claims:
the device handle (`0` meaning no handle yet, as for GL texture names),
the stored level count and the base pixmap descriptor. -/
structure Texture where
  texName : Nat
  levels_ : Nat
  pixDesc : PixmapDesc
deriving DecidableEq, Repr

/-- A device command enqueued on the render task, abstracting the GL calls
issued by the texture code. -/
inductive GLCmd where
  | genTexture (name : Nat)
  | texStorage2D (levels w h : Nat)
  | texImage2D (level w h : Nat)
  | texSubImage2D (level x y w h srcAddr : Nat)
  | generateMipmapsCmd
  | freeBuffer
  | bindTexture (name : Nat)
deriving DecidableEq, Repr

def GLCmd.isUpload : GLCmd → Bool
  | .texSubImage2D .. => true
  | _ => false

def GLCmd.isTexImage : GLCmd → Bool
  | .texImage2D .. => true
  | _ => false

/-- The halving loop shared by `Texture::size` (part_004 lines 574-584) and
the mutable-storage allocation loop of `Texture::setFormat`
(part_004 lines 376-386): `n` iterations of `w := max 1 (w / 2)`. -/
def halveLoop : Nat → Nat → Nat
  | 0, w => w
  | n + 1, w => halveLoop n (max 1 (w / 2))

/-- `Texture::size` (part_004 lines 574-584): pure computation on the stored
descriptor, halving and flooring each axis once per level. -/
def Texture.size (t : Texture) (level : Nat) : Nat × Nat :=
  (halveLoop level t.pixDesc.w, halveLoop level t.pixDesc.h)

/-- `GLTexture::canUseMipmaps` (part_004 lines 277-280). -/
def Texture.canUseMipmaps (r : DriverSupport) (t : Texture) : Bool :=
  r.textureSizeSupport.supportsMipmaps t.pixDesc.w t.pixDesc.h

/-- `GLTexture::updateLevelsForMipmapGeneration` (part_004 lines 832-839):
only without immutable storage is the stored level count recomputed. -/
def updateLevelsForMipmapGeneration (r : DriverSupport) (t : Texture) : Texture :=
  if r.hasImmutableTexStorage then t
  else { t with levels_ := fls (t.pixDesc.w ||| t.pixDesc.h) }

/-- `Texture::generateMipmaps` (part_004 lines 293-311): returns the success
flag, the updated texture state and the enqueued device commands. -/
def Texture.generateMipmaps (r : DriverSupport) (t : Texture) : Bool × Texture × List GLCmd :=
  if t.texName = 0 then (false, t, [])
  else if !(t.canUseMipmaps r) then (false, t, [])
  else (true, updateLevelsForMipmapGeneration r t, [GLCmd.generateMipmapsCmd])

/-- The level-count computation opening `Texture::setFormat`
(part_004 lines 320-330): with mipmap-capable dimensions a zero level hint
selects `fls(w | h)` levels, a nonzero hint is kept; otherwise one level. -/
def setFormatLevels (r : DriverSupport) (desc : PixmapDesc) (levels : Nat) : Nat :=
  if r.textureSizeSupport.supportsMipmaps desc.w desc.h then
    if levels = 0 then fls (desc.w ||| desc.h) else levels
  else 1

/-- The per-level allocation loop of the mutable-storage branch of
`Texture::setFormat` (part_004 lines 376-386): one `glTexImage2D` per level,
halving and flooring the dimensions after each. -/
def texImageLoop : Nat → Nat → Nat → Nat → List GLCmd
  | 0, _, _, _ => []
  | n + 1, i, w, h =>
    GLCmd.texImage2D i w h :: texImageLoop n (i + 1) (max 1 (w / 2)) (max 1 (h / 2))

/-- `Texture::setFormat` (part_004 lines 318-394). `freshName` stands for the
device name produced by `makeGLTextureName` when a new handle is made. -/
def Texture.setFormat (r : DriverSupport) (t : Texture) (desc : PixmapDesc) (levels : Nat)
    (freshName : Nat) : Texture × List GLCmd :=
  let lv := setFormatLevels r desc levels
  if r.hasImmutableTexStorage then
    ({ texName := freshName, levels_ := lv, pixDesc := desc },
      [GLCmd.genTexture freshName, GLCmd.texStorage2D lv desc.w desc.h])
  else
    if lv = t.levels_ then
      ({ texName := t.texName, levels_ := lv, pixDesc := desc },
        texImageLoop lv 0 desc.w desc.h)
    else
      ({ texName := freshName, levels_ := lv, pixDesc := desc },
        GLCmd.genTexture freshName :: texImageLoop lv 0 desc.w desc.h)

/-- Buffer flags of `Texture::lock`: only `BUFFER_FLAG_CLEARED` matters here. -/
structure BufferFlags where
  cleared : Bool
deriving DecidableEq, Repr

/-- Write flags of `Texture::writeAligned`/`unlock`. -/
structure WriteFlags where
  async : Bool
  makeMipmaps : Bool
deriving DecidableEq, Repr

/-- `LockedTextureBuffer` (see part_004 lines 217-230 and 493-515): the host
buffer bytes, the pixel view dimensions and format over that buffer, the
destination dirty rectangle, the level, ownership of the buffer and the
optional pixel-unpack buffer handle (`0` meaning none). -/
structure LockedTextureBuffer where
  data : List Nat
  pixW : Nat
  pixH : Nat
  format : PixelFormat
  rect : WindowRect
  level : Nat
  shouldFreeBuffer : Bool
  pbo : Nat
  bufferOffset : Nat
deriving DecidableEq, Repr

/-- `Texture::lock` (part_004 lines 493-515). The host allocator is passed
explicitly; `none` models the C `malloc`/`calloc` returning a null pointer,
and the zero-fill of `calloc` is applied on the cleared path. The empty
`LockedTextureBuffer` returned by the source (which converts to `false`)
is modelled as `none`. -/
def Texture.lock (t : Texture) (level : Nat) (rect : WindowRect) (flags : BufferFlags)
    (malloc : Nat → Option (List Nat)) : Option LockedTextureBuffer :=
  if t.texName = 0 then none
  else
    let bufferBytes := t.pixDesc.format.pixelBytes (rect.xSize * rect.ySize)
    let data? := if flags.cleared then
        (malloc bufferBytes).map fun _ => List.replicate bufferBytes 0
      else malloc bufferBytes
    match data? with
    | none => none
    | some data =>
      some { data := data, pixW := rect.xSize, pixH := rect.ySize,
             format := t.pixDesc.format, rect := rect, level := level,
             shouldFreeBuffer := true, pbo := 0, bufferOffset := 0 }

/-- `Texture::unlock` (part_004 lines 517-572): a null buffer is an immediate
no-op; otherwise the level count is refreshed when mipmaps are requested and
one upload command (plus buffer free and mipmap generation as applicable) is
enqueued. -/
def Texture.unlock (r : DriverSupport) (t : Texture) (lockBuff : Option LockedTextureBuffer)
    (writeFlags : WriteFlags) : Texture × List GLCmd :=
  match lockBuff with
  | none => (t, [])
  | some b =>
    let makeMipmaps := writeFlags.makeMipmaps && t.canUseMipmaps r
    let t' := if makeMipmaps then updateLevelsForMipmapGeneration r t else t
    (t',
      GLCmd.texSubImage2D b.level b.rect.x b.rect.y b.pixW b.pixH b.bufferOffset
        :: ((if b.pbo = 0 && b.shouldFreeBuffer then [GLCmd.freeBuffer] else [])
          ++ (if makeMipmaps then [GLCmd.generateMipmapsCmd] else [])))

/-- Modelled from the spec: `MutablePixmapView::write` on the staged path
copies the caller's rows into a tightly packed buffer, removing the
inter-row padding. Byte `i` of the packed buffer comes from row `i / rowBytes`
and column byte `i % rowBytes` of the source. -/
def packPixels (src : PixmapView) : List Nat :=
  let rowBytes := src.w * src.format.bytesPerPixel
  (List.range (src.h * rowBytes)).map fun i =>
    src.byte ((i / rowBytes) * src.pitchBytes + (i % rowBytes))

/-- Outcome of `Texture::writeAligned`: early return on a missing handle,
the `bug_unreachable` abort on a failed alignment check, the direct upload
path, or the staged path through `lock`/`unlock` (which can itself fail to
get a buffer). -/
inductive WriteResult where
  | uninit
  | misaligned (addr align : Nat)
  | direct (t' : Texture) (cmds : List GLCmd)
  | stagedNoBuffer
  | staged (t' : Texture) (buf : LockedTextureBuffer) (cmds : List GLCmd)
deriving DecidableEq, Repr

def WriteResult.isMisaligned : WriteResult → Bool
  | .misaligned _ _ => true
  | _ => false

/-- `Texture::writeAligned` (part_004 lines 406-470). -/
def Texture.writeAligned (r : DriverSupport) (t : Texture) (level : Nat) (pixmap : PixmapView)
    (destPos : Nat × Nat) (assumeAlign : Nat) (writeFlags : WriteFlags)
    (malloc : Nat → Option (List Nat)) : WriteResult :=
  if t.texName = 0 then .uninit
  else
    let align := if assumeAlign = 0 then
        unpackAlignForAddrAndPitch pixmap.dataAddr pixmap.pitchBytes
      else assumeAlign
    if pixmap.dataAddr % align ≠ 0 then .misaligned pixmap.dataAddr align
    else
      let makeMipmaps := writeFlags.makeMipmaps && t.canUseMipmaps r
      if r.hasUnpackRowLength || !pixmap.isPadded then
        let t' := if makeMipmaps then updateLevelsForMipmapGeneration r t else t
        .direct t'
          (GLCmd.texSubImage2D level destPos.1 destPos.2 pixmap.w pixmap.h pixmap.dataAddr
            :: (if makeMipmaps then [GLCmd.generateMipmapsCmd] else []))
      else
        let lockRect : WindowRect :=
          ⟨destPos.1, destPos.2, destPos.1 + pixmap.w, destPos.2 + pixmap.h⟩
        match t.lock level lockRect ⟨false⟩ malloc with
        | none => .stagedNoBuffer
        | some lockBuff =>
          let lockBuff' := { lockBuff with data := packPixels pixmap }
          let out := t.unlock r (some lockBuff') writeFlags
          .staged out.1 lockBuff' out.2

/-- `Texture::bestAlignment` (part_004 lines 272-275). -/
def Texture.bestAlignment (p : PixmapView) : Nat :=
  unpackAlignForAddrAndPitch p.dataAddr p.pitchBytes

/-- `Texture::write` (part_004 lines 472-475). -/
def Texture.write (r : DriverSupport) (t : Texture) (level : Nat) (pixmap : PixmapView)
    (destPos : Nat × Nat) (writeFlags : WriteFlags)
    (malloc : Nat → Option (List Nat)) : WriteResult :=
  t.writeAligned r level pixmap destPos (Texture.bestAlignment pixmap) writeFlags malloc

/-- `GLTexture::bindTex` (part_004 lines 396-404): no command is recorded on
a missing handle. -/
def Texture.bindTex (t : Texture) : List GLCmd :=
  if t.texName = 0 then [] else [GLCmd.bindTexture t.texName]

/-- The spec-side formula of claim C9: the largest power of two at most 8
dividing a number. Stated from the claim's words, to be compared with the
source's lookup table. -/
def maxPow2DivLe8 (n : Nat) : Nat :=
  if 8 ∣ n then 8 else if 4 ∣ n then 4 else if 2 ∣ n then 2 else 1

/-! Concrete fixtures used to instantiate the theorems. -/

/-- A 4-byte-per-pixel format such as RGBA8888. -/
def fmt4 : PixelFormat := ⟨4⟩

/-- A 1-byte-per-pixel format such as A8. -/
def fmt1 : PixelFormat := ⟨1⟩

/-- The descriptor of the spec's end-to-end example: (100, 50, RGBA8888). -/
def desc100 : PixmapDesc := ⟨100, 50, fmt4⟩

/-- A 4x4 power-of-two descriptor. -/
def desc4 : PixmapDesc := ⟨4, 4, fmt4⟩

/-- Backend with immutable storage and unconditional mipmap support. -/
def rImm : DriverSupport := ⟨true, true, ⟨true⟩⟩

/-- Backend with mutable storage only and unconditional mipmap support. -/
def rMut : DriverSupport := ⟨false, false, ⟨true⟩⟩

/-- Mutable-storage backend that also supports a custom unpack row length. -/
def rMutRow : DriverSupport := ⟨false, true, ⟨true⟩⟩

/-- Backend with immutable storage that cannot mipmap non-power-of-two images. -/
def rImmPow2 : DriverSupport := ⟨true, false, ⟨false⟩⟩

/-- Mutable-storage backend that cannot mipmap non-power-of-two images. -/
def rMutPow2 : DriverSupport := ⟨false, false, ⟨false⟩⟩

/-- A texture that was never formatted: no device handle. -/
def texUnformatted : Texture := ⟨0, 0, desc100⟩

/-- A formatted 100x50 texture with the full 7-level chain. -/
def tex100 : Texture := ⟨1, 7, desc100⟩

/-- A formatted 100x60 texture (both dimensions non-power-of-two). -/
def tex10060 : Texture := ⟨2, 1, ⟨100, 60, fmt4⟩⟩

/-- A 4x4 texture formatted on `rImmPow2` with an explicit level hint of 2. -/
def tex4Hint2 : Texture := (Texture.setFormat rImmPow2 ⟨0, 0, desc4⟩ desc4 2 1).1

/-- A formatted 4x4 texture with one level on a mutable-storage backend. -/
def texMut4 : Texture := ⟨1, 1, desc4⟩

/-- A formatted 4x4 single-byte-format texture. -/
def texSmall : Texture := ⟨3, 1, ⟨4, 4, fmt1⟩⟩

/-- A 2x2 single-byte pixmap with a packed (unpadded) layout. -/
def pixSmall : PixmapView := ⟨2, 2, fmt1, 8, 2, fun _ => 0⟩

/-- A 2x2 single-byte pixmap with pitch 3: one padding byte per row. -/
def pixPadded : PixmapView := ⟨2, 2, fmt1, 8, 3, fun i => i⟩

/-- A host allocator that always succeeds, handing out zeroed storage. -/
def mallocOk : Nat → Option (List Nat) := fun n => some (List.replicate n 0)

/-- A small rectangle fixture. -/
def rectSmall : WindowRect := ⟨0, 0, 2, 2⟩

/-! Helper lemmas. -/

theorem mallocOk_len : ∀ n buf, mallocOk n = some buf → buf.length = n := by
  intro n buf h
  simp only [mallocOk, Option.some.injEq] at h
  simp [← h]

theorem mallocOk_isSome : ∀ n, (mallocOk n).isSome := fun _ => rfl

theorem testBit_of_ge_of_lt {w m : Nat} (h1 : 2 ^ m ≤ w) (h2 : w < 2 ^ (m + 1)) :
    w.testBit m = true := by
  rw [Nat.testBit_to_div_mod]
  have hdiv : w / 2 ^ m = 1 := by
    refine Nat.div_eq_of_lt_le (by simpa using h1) ?_
    simpa [Nat.pow_succ, Nat.mul_comm] using h2
  simp [hdiv]

/-- The binary-or of two positive numbers has the same bit length as their
maximum, hence the same floor of the base-2 logarithm. -/
theorem log2_lor (w h : Nat) (hw : 1 ≤ w) (hh : 1 ≤ h) :
    Nat.log2 (w ||| h) = Nat.log2 (max w h) ∧ 1 ≤ w ||| h := by
  rw [Nat.log2_eq_log_two, Nat.log2_eq_log_two]
  set m := Nat.log 2 (max w h) with hm
  have hmaxpos : max w h ≠ 0 := by omega
  have h1 : 2 ^ m ≤ max w h := Nat.pow_log_le_self 2 hmaxpos
  have h2 : max w h < 2 ^ (m + 1) := Nat.lt_pow_succ_log_self (by norm_num) _
  have hwlt : w < 2 ^ (m + 1) := lt_of_le_of_lt (le_max_left w h) h2
  have hhlt : h < 2 ^ (m + 1) := lt_of_le_of_lt (le_max_right w h) h2
  have horlt : w ||| h < 2 ^ (m + 1) := Nat.or_lt_two_pow hwlt hhlt
  have hbit : (w ||| h).testBit m = true := by
    rcases max_choice w h with hc | hc
    · have hb : w.testBit m = true := testBit_of_ge_of_lt (hc ▸ h1) hwlt
      simp [Nat.testBit_or, hb]
    · have hb : h.testBit m = true := testBit_of_ge_of_lt (hc ▸ h1) hhlt
      simp [Nat.testBit_or, hb]
  have horge : 2 ^ m ≤ w ||| h := Nat.testBit_implies_ge hbit
  refine ⟨Nat.log_eq_of_pow_le_of_lt_pow horge horlt, ?_⟩
  calc 1 ≤ 2 ^ m := Nat.one_le_two_pow
  _ ≤ w ||| h := horge

/-- `fls(w | h)` equals `floor(log2(max(w, h))) + 1` for positive dimensions. -/
theorem fls_lor (w h : Nat) (hw : 1 ≤ w) (hh : 1 ≤ h) :
    fls (w ||| h) = Nat.log2 (max w h) + 1 := by
  obtain ⟨heq, hpos⟩ := log2_lor w h hw hh
  unfold fls
  rw [if_neg (by omega), heq]

theorem halveLoop_succ (n w : Nat) : halveLoop (n + 1) w = halveLoop n (max 1 (w / 2)) := rfl

/-- The halving loop computes `max 1 (w / 2 ^ n)` on positive input. -/
theorem halveLoop_eq (n : Nat) : ∀ w : Nat, 1 ≤ w → halveLoop n w = max 1 (w / 2 ^ n) := by
  induction n with
  | zero => intro w hw; simp [halveLoop]; omega
  | succ n ih =>
    intro w hw
    rw [halveLoop_succ, ih (max 1 (w / 2)) (le_max_left 1 (w / 2))]
    rcases Nat.lt_or_ge w 2 with hw2 | hw2
    · have hw1 : w = 1 := by omega
      subst hw1
      rw [show max 1 ((1 : Nat) / 2) = 1 by norm_num]
      have h3 : (1 : Nat) / 2 ^ n ≤ 1 := Nat.div_le_self _ _
      have h4 : (1 : Nat) / 2 ^ (n + 1) ≤ 1 := Nat.div_le_self _ _
      rw [Nat.max_eq_left h3, Nat.max_eq_left h4]
    · have hhalf : max 1 (w / 2) = w / 2 := by
        have h1 : 1 ≤ w / 2 := by omega
        omega
      rw [hhalf, Nat.div_div_eq_div_mul]
      have h2 : (2 : Nat) * 2 ^ n = 2 ^ (n + 1) := by ring
      rw [h2]

theorem and_seven (a : Nat) : a &&& 7 = a % 8 := Nat.and_pow_two_sub_one_eq_mod a 3

/-- The source's alignment lookup table agrees with the claim's formula:
the largest power of two at most 8 dividing the argument. -/
theorem makeUnpackAlignment_eq (a : Nat) : makeUnpackAlignment a = maxPow2DivLe8 a := by
  unfold makeUnpackAlignment maxPow2DivLe8
  rw [and_seven]
  have h : a % 8 < 8 := Nat.mod_lt _ (by norm_num)
  interval_cases h2 : a % 8 <;> (repeat' split) <;> simp [alignMap] <;> omega

theorem makeUnpackAlignment_dvd (a : Nat) : makeUnpackAlignment a ∣ a := by
  rw [makeUnpackAlignment_eq]
  unfold maxPow2DivLe8
  split
  · assumption
  split
  · assumption
  split
  · assumption
  exact Nat.one_dvd a

theorem makeUnpackAlignment_mem (a : Nat) :
    makeUnpackAlignment a = 1 ∨ makeUnpackAlignment a = 2 ∨
      makeUnpackAlignment a = 4 ∨ makeUnpackAlignment a = 8 := by
  rw [makeUnpackAlignment_eq]
  unfold maxPow2DivLe8
  split
  · tauto
  split
  · tauto
  split
  · tauto
  tauto

/-- In the divisibility chain 1, 2, 4, 8 the minimum of two members divides both. -/
theorem min_chain_dvd {a b : Nat}
    (ha : a = 1 ∨ a = 2 ∨ a = 4 ∨ a = 8) (hb : b = 1 ∨ b = 2 ∨ b = 4 ∨ b = 8) :
    min a b ∣ a ∧ min a b ∣ b := by
  rcases ha with rfl | rfl | rfl | rfl <;> rcases hb with rfl | rfl | rfl | rfl <;> decide

theorem bestAlignment_mem (p : PixmapView) :
    Texture.bestAlignment p = 1 ∨ Texture.bestAlignment p = 2 ∨
      Texture.bestAlignment p = 4 ∨ Texture.bestAlignment p = 8 := by
  unfold Texture.bestAlignment unpackAlignForAddrAndPitch
  rcases min_choice (makeUnpackAlignment p.pitchBytes) (makeUnpackAlignment p.dataAddr) with
    hc | hc <;> rw [hc]
  · exact makeUnpackAlignment_mem _
  · exact makeUnpackAlignment_mem _

theorem bestAlignment_ne_zero (p : PixmapView) : Texture.bestAlignment p ≠ 0 := by
  rcases bestAlignment_mem p with h | h | h | h <;> omega

theorem bestAlignment_dvd (p : PixmapView) :
    Texture.bestAlignment p ∣ p.dataAddr ∧ Texture.bestAlignment p ∣ p.pitchBytes := by
  unfold Texture.bestAlignment unpackAlignForAddrAndPitch
  obtain ⟨h1, h2⟩ := min_chain_dvd (makeUnpackAlignment_mem p.pitchBytes)
    (makeUnpackAlignment_mem p.dataAddr)
  exact ⟨h2.trans (makeUnpackAlignment_dvd p.dataAddr),
    h1.trans (makeUnpackAlignment_dvd p.pitchBytes)⟩

theorem bestAlignment_mod (p : PixmapView) :
    p.dataAddr % Texture.bestAlignment p = 0 :=
  Nat.mod_eq_zero_of_dvd (bestAlignment_dvd p).1

/-- The mutable-storage allocation loop, written as a map over level indices. -/
theorem texImageLoop_eq (n : Nat) : ∀ i w h : Nat,
    texImageLoop n i w h =
      (List.range n).map fun j => GLCmd.texImage2D (i + j) (halveLoop j w) (halveLoop j h) := by
  induction n with
  | zero => intro i w h; simp [texImageLoop]
  | succ n ih =>
    intro i w h
    rw [show texImageLoop (n + 1) i w h =
        GLCmd.texImage2D i w h :: texImageLoop n (i + 1) (max 1 (w / 2)) (max 1 (h / 2)) from rfl]
    rw [ih, List.range_succ_eq_map, List.map_cons, List.map_map]
    refine congrArg₂ _ (by simp [halveLoop]) ?_
    refine List.map_congr_left fun j hj => ?_
    simp only [Function.comp_apply, halveLoop_succ]
    have hidx : i + 1 + j = i + (j + 1) := by omega
    rw [hidx]

/-- Every branch of `setFormat` stores the computed level count and the new
descriptor through `updateFormatInfo`. -/
theorem setFormat_fst (r : DriverSupport) (t : Texture) (desc : PixmapDesc)
    (levels freshName : Nat) :
    (t.setFormat r desc levels freshName).1.levels_ = setFormatLevels r desc levels
    ∧ (t.setFormat r desc levels freshName).1.pixDesc = desc := by
  unfold Texture.setFormat
  split
  · exact ⟨rfl, rfl⟩
  · dsimp only
    split
    · exact ⟨rfl, rfl⟩
    · exact ⟨rfl, rfl⟩

/-! Claim theorems. -/

/-- C1: for a descriptor with positive dimensions the backend can mipmap,
`setFormat` with a zero level hint stores a level count of
`floor(log2(max(w, h))) + 1`; the computation performed by the code is
`fls(w | h)`, and the two agree. -/
theorem setFormat_auto_levels (r : DriverSupport) (t : Texture) (desc : PixmapDesc)
    (freshName : Nat) (hw : 1 ≤ desc.w) (hh : 1 ≤ desc.h)
    (hsup : r.textureSizeSupport.supportsMipmaps desc.w desc.h = true) :
    (t.setFormat r desc 0 freshName).1.levels_ = Nat.log2 (max desc.w desc.h) + 1
    ∧ setFormatLevels r desc 0 = fls (desc.w ||| desc.h) := by
  have hlv : setFormatLevels r desc 0 = fls (desc.w ||| desc.h) := by
    unfold setFormatLevels
    rw [hsup]
    simp
  refine ⟨?_, hlv⟩
  rw [(setFormat_fst r t desc 0 freshName).1, hlv, fls_lor desc.w desc.h hw hh]

/-- C1 witness: formatting a (100, 50, RGBA8888) descriptor with no explicit
level hint on a backend with immutable storage yields a level count of 7. -/
theorem setFormat_auto_levels_witness :
    (texUnformatted.setFormat rImm desc100 0 5).1.levels_ = 7 := by
  have h := (setFormat_auto_levels rImm texUnformatted desc100 5
    (by decide) (by decide) (by decide)).1
  rw [h]
  have h100 : Nat.log2 (max desc100.w desc100.h) = 6 := by
    rw [show max desc100.w desc100.h = 100 from rfl]
    rw [Nat.log2_eq_log_two]
    exact Nat.log_eq_of_pow_le_of_lt_pow (by norm_num) (by norm_num)
  rw [h100]

/-- C2: `size(level)` equals `(max 1 (w / 2 ^ level), max 1 (h / 2 ^ level))`
for a formatted texture with positive base dimensions; consequently it is
non-increasing in the level on each axis, stays at least 1 on each axis, and
reaches 1 on an axis once `2 ^ level` exceeds that base dimension. -/
theorem size_halving (t : Texture) (level : Nat)
    (hw : 1 ≤ t.pixDesc.w) (hh : 1 ≤ t.pixDesc.h) :
    t.size level = (max 1 (t.pixDesc.w / 2 ^ level), max 1 (t.pixDesc.h / 2 ^ level))
    ∧ (t.size (level + 1)).1 ≤ (t.size level).1
    ∧ (t.size (level + 1)).2 ≤ (t.size level).2
    ∧ 1 ≤ (t.size level).1 ∧ 1 ≤ (t.size level).2
    ∧ (t.pixDesc.w < 2 ^ level → (t.size level).1 = 1)
    ∧ (t.pixDesc.h < 2 ^ level → (t.size level).2 = 1) := by
  have hpow : (2 : Nat) ^ level ≤ 2 ^ (level + 1) :=
    Nat.pow_le_pow_right (by norm_num) (by omega)
  have hw1 := halveLoop_eq level t.pixDesc.w hw
  have hh1 := halveLoop_eq level t.pixDesc.h hh
  have hw2 := halveLoop_eq (level + 1) t.pixDesc.w hw
  have hh2 := halveLoop_eq (level + 1) t.pixDesc.h hh
  have hdw : t.pixDesc.w / 2 ^ (level + 1) ≤ t.pixDesc.w / 2 ^ level :=
    Nat.div_le_div_left hpow (Nat.pos_pow_of_pos level (by norm_num))
  have hdh : t.pixDesc.h / 2 ^ (level + 1) ≤ t.pixDesc.h / 2 ^ level :=
    Nat.div_le_div_left hpow (Nat.pos_pow_of_pos level (by norm_num))
  unfold Texture.size
  refine ⟨by rw [hw1, hh1], ?_, ?_, ?_, ?_, ?_, ?_⟩
  · simp only [hw1, hw2]
    omega
  · simp only [hh1, hh2]
    omega
  · simp only [hw1]
    omega
  · simp only [hh1]
    omega
  · intro hlt
    have hz : t.pixDesc.w / 2 ^ level = 0 := Nat.div_eq_of_lt hlt
    simp only [hw1, hz]
    omega
  · intro hlt
    have hz : t.pixDesc.h / 2 ^ level = 0 := Nat.div_eq_of_lt hlt
    simp only [hh1, hz]
    omega

/-- C2 witness: on the (100, 50) texture `size(0) = (100, 50)` and
`size(6) = (1, 1)`, and the halving formula instance produced by the theorem
holds there. -/
theorem size_halving_witness :
    tex100.size 0 = (100, 50) ∧ tex100.size 6 = (1, 1)
    ∧ tex100.size 6 = (max 1 (tex100.pixDesc.w / 2 ^ 6), max 1 (tex100.pixDesc.h / 2 ^ 6)) :=
  ⟨by decide, by decide, (size_halving tex100 6 (by decide) (by decide)).1⟩

/-- C4: on a formatted texture whose dimensions fail the backend's mipmap
eligibility rule (a zero dimension, or a non-power-of-two dimension on a
backend that cannot mipmap such images), `generateMipmaps` returns false,
enqueues no command and leaves the texture state, including the stored level
count, unchanged. -/
theorem generateMipmaps_ineligible (r : DriverSupport) (t : Texture)
    (ht : t.texName ≠ 0)
    (hdims : t.pixDesc.w = 0 ∨ t.pixDesc.h = 0 ∨
      (r.textureSizeSupport.nonPow2CanMipmap = false ∧
        (isPowerOf2 t.pixDesc.w = false ∨ isPowerOf2 t.pixDesc.h = false))) :
    t.generateMipmaps r = (false, t, []) := by
  have hcan : t.canUseMipmaps r = false := by
    unfold Texture.canUseMipmaps TextureSizeSupport.supportsMipmaps
    rcases hdims with h | h | ⟨h1, h2⟩
    · simp [h]
    · simp [h]
    · rcases h2 with h2 | h2 <;> simp [h1, h2]
  unfold Texture.generateMipmaps
  rw [if_neg ht, hcan]
  rfl

/-- C4 witness: `generateMipmaps` on a formatted 100x60 texture, on a backend
without non-power-of-two mipmap support, fails and changes nothing. -/
theorem generateMipmaps_ineligible_witness :
    tex10060.generateMipmaps rImmPow2 = (false, tex10060, []) :=
  generateMipmaps_ineligible rImmPow2 tex10060 (by decide)
    (Or.inr (Or.inr ⟨by decide, Or.inl (by decide)⟩))

/-- C10: `unlock` on a null locked buffer is a complete no-op for every
texture state and every write-flags value: it returns the texture unchanged
and enqueues no device command (hence frees nothing). -/
theorem unlock_null_noop (r : DriverSupport) (t : Texture) (flags : WriteFlags) :
    t.unlock r none flags = (t, []) := rfl

/-- C5 counterexample: a 4x4 texture formatted with an explicit level hint of
2 on a backend with immutable texture storage. `generateMipmaps` succeeds, yet
the stored level count stays 2 and does not become
`floor(log2(max(w, h))) + 1 = 3`: with immutable storage
`updateLevelsForMipmapGeneration` leaves the count untouched, so the claim's
"regardless of backend capabilities" fails. -/
theorem generateMipmaps_immutable_keeps_levels :
    (tex4Hint2.generateMipmaps rImmPow2).1 = true
    ∧ (tex4Hint2.generateMipmaps rImmPow2).2.1.levels_ = 2
    ∧ Nat.log2 (max tex4Hint2.pixDesc.w tex4Hint2.pixDesc.h) + 1 = 3 := by
  refine ⟨by decide, by decide, ?_⟩
  have hl : Nat.log 2 4 = 2 := Nat.log_eq_of_pow_le_of_lt_pow (by norm_num) (by norm_num)
  rw [show max tex4Hint2.pixDesc.w tex4Hint2.pixDesc.h = 4 from by decide,
    Nat.log2_eq_log_two, hl]

/-- C5 amended: when `generateMipmaps` succeeds, the stored level count is
recomputed to `floor(log2(max(w, h))) + 1` on backends without immutable
texture storage (regardless of the level count requested at formatting time);
on immutable-storage backends it is left unchanged. -/
theorem generateMipmaps_success_levels (r : DriverSupport) (t : Texture)
    (h : (t.generateMipmaps r).1 = true) :
    (t.generateMipmaps r).2.1.levels_ =
      if r.hasImmutableTexStorage then t.levels_
      else Nat.log2 (max t.pixDesc.w t.pixDesc.h) + 1 := by
  by_cases h0 : t.texName = 0
  · unfold Texture.generateMipmaps at h
    rw [if_pos h0] at h
    simp at h
  by_cases hcan : t.canUseMipmaps r = true
  · have hres : t.generateMipmaps r =
        (true, updateLevelsForMipmapGeneration r t, [GLCmd.generateMipmapsCmd]) := by
      unfold Texture.generateMipmaps
      rw [if_neg h0, hcan]
      rfl
    rw [hres]
    have hdims : t.pixDesc.w ≠ 0 ∧ t.pixDesc.h ≠ 0 := by
      unfold Texture.canUseMipmaps TextureSizeSupport.supportsMipmaps at hcan
      simp only [Bool.and_eq_true, bne_iff_ne, ne_eq] at hcan
      exact ⟨hcan.1.1, hcan.1.2⟩
    show (updateLevelsForMipmapGeneration r t).levels_ = _
    unfold updateLevelsForMipmapGeneration
    split
    · rfl
    · exact fls_lor t.pixDesc.w t.pixDesc.h (by omega) (by omega)
  · have hcf : t.canUseMipmaps r = false := by
      cases hc : t.canUseMipmaps r
      · rfl
      · exact absurd hc hcan
    unfold Texture.generateMipmaps at h
    rw [if_neg h0, hcf] at h
    simp at h

/-- C5 amended witness: on a mutable-storage backend a formatted 4x4 texture
with 1 stored level gets its level count recomputed by a successful
`generateMipmaps`. -/
theorem generateMipmaps_success_levels_witness :
    (texMut4.generateMipmaps rMutPow2).2.1.levels_ =
      if rMutPow2.hasImmutableTexStorage then texMut4.levels_
      else Nat.log2 (max texMut4.pixDesc.w texMut4.pixDesc.h) + 1 :=
  generateMipmaps_success_levels rMutPow2 texMut4 (by decide)

/-- C7 counterexample: on an unformatted texture (no device handle) the
operations do not abort: `generateMipmaps` returns false leaving the state
unchanged, `writeAligned` takes its early-return branch (not the
`bug_unreachable` abort), `lock` returns the empty buffer, and `bindTex`
records no command — each is an ordinary recoverable return, contradicting
the claim that these calls are handled fatally. -/
theorem unformatted_ops_return :
    texUnformatted.generateMipmaps rMut = (false, texUnformatted, [])
    ∧ texUnformatted.writeAligned rMut 0 pixSmall (0, 0) 0 ⟨false, false⟩ mallocOk
        = WriteResult.uninit
    ∧ texUnformatted.lock 0 rectSmall ⟨false⟩ mallocOk = none
    ∧ texUnformatted.bindTex = [] := by
  refine ⟨by decide, ?_, by decide, by decide⟩
  rw [Texture.writeAligned, if_pos (by decide)]

/-- C7 amended: every operation other than formatting invoked on an
unformatted texture is detected by the leading handle check and handled
gracefully, not fatally: `generateMipmaps` returns false, `writeAligned`
returns without uploading, `lock` returns an empty buffer, and `bindTex`
issues no command; no device command is enqueued and the texture state is
unchanged in each case. -/
theorem unformatted_ops_graceful (r : DriverSupport) (t : Texture) (level : Nat)
    (pixmap : PixmapView) (destPos : Nat × Nat) (assumeAlign : Nat)
    (wflags : WriteFlags) (bflags : BufferFlags) (rect : WindowRect)
    (malloc : Nat → Option (List Nat)) (h : t.texName = 0) :
    t.generateMipmaps r = (false, t, [])
    ∧ t.writeAligned r level pixmap destPos assumeAlign wflags malloc = WriteResult.uninit
    ∧ t.lock level rect bflags malloc = none
    ∧ t.bindTex = [] := by
  refine ⟨?_, ?_, ?_, ?_⟩
  · rw [Texture.generateMipmaps, if_pos h]
  · rw [Texture.writeAligned, if_pos h]
  · rw [Texture.lock, if_pos h]
  · rw [Texture.bindTex, if_pos h]

/-- On a formatted texture, `lock` is the image of the host allocation under
the buffer constructor: the rectangle's byte extent is requested, the
zero-fill of `calloc` is applied when the cleared flag is set, and the buffer
records the rectangle, level and ownership. -/
theorem lock_eq (t : Texture) (level : Nat) (rect : WindowRect) (flags : BufferFlags)
    (malloc : Nat → Option (List Nat)) (ht : t.texName ≠ 0) :
    t.lock level rect flags malloc =
      (malloc (t.pixDesc.format.bytesPerPixel * (rect.xSize * rect.ySize))).map fun raw =>
        { data := if flags.cleared then
            List.replicate (t.pixDesc.format.bytesPerPixel * (rect.xSize * rect.ySize)) 0
          else raw,
          pixW := rect.xSize, pixH := rect.ySize, format := t.pixDesc.format,
          rect := rect, level := level, shouldFreeBuffer := true, pbo := 0,
          bufferOffset := 0 } := by
  unfold Texture.lock
  rw [if_neg ht]
  cases hc : flags.cleared <;>
    cases hm : malloc (t.pixDesc.format.bytesPerPixel * (rect.xSize * rect.ySize)) <;>
      simp [PixelFormat.pixelBytes, hc, hm]

/-- C6: on a formatted texture `lock` fails (returns the empty buffer) exactly
when the host allocation of the rectangle's byte extent fails; on success the
buffer holds exactly `bytesPerPixel * (width * height)` bytes of the
rectangle, all zero when the cleared flag was passed. -/
theorem lock_alloc (t : Texture) (level : Nat) (rect : WindowRect) (flags : BufferFlags)
    (malloc : Nat → Option (List Nat)) (ht : t.texName ≠ 0)
    (hmal : ∀ n buf, malloc n = some buf → buf.length = n) :
    (t.lock level rect flags malloc = none ↔
      malloc (t.pixDesc.format.bytesPerPixel * (rect.xSize * rect.ySize)) = none)
    ∧ ∀ b, t.lock level rect flags malloc = some b →
        b.data.length = t.pixDesc.format.bytesPerPixel * (rect.xSize * rect.ySize)
        ∧ (flags.cleared = true → ∀ x ∈ b.data, x = 0) := by
  rw [lock_eq t level rect flags malloc ht]
  cases hm : malloc (t.pixDesc.format.bytesPerPixel * (rect.xSize * rect.ySize)) with
  | none => simp
  | some raw =>
    have hlen := hmal _ _ hm
    refine ⟨by simp, ?_⟩
    intro b hb
    simp only [Option.map_some', Option.some.injEq] at hb
    subst hb
    cases hc : flags.cleared
    · simp [hc, hlen]
    · refine ⟨by simp [hc], fun _ x hx => ?_⟩
      simp only [hc, if_true, List.mem_replicate] at hx
      exact hx.2

/-- C6 witness: locking a 2x3 rectangle of the formatted (100, 50, RGBA8888)
texture with the cleared flag requests exactly 24 bytes, and with the
always-succeeding allocator the lock does not fail. -/
theorem lock_alloc_witness :
    (tex100.lock 0 ⟨0, 0, 2, 3⟩ ⟨true⟩ mallocOk = none ↔ mallocOk 24 = none) := by
  have h := (lock_alloc tex100 0 ⟨0, 0, 2, 3⟩ ⟨true⟩ mallocOk (by decide) mallocOk_len).1
  simpa [tex100, desc100, fmt4, WindowRect.xSize, WindowRect.ySize] using h

/-- C9: `bestAlignment` always returns one of 1, 2, 4, 8; it divides both the
pixmap's data address and its pitch in bytes, and equals the minimum over
address and pitch of the largest power of two at most 8 dividing each;
consequently `write`, which passes it as `assumeAlign` into `writeAligned`,
can never reach the failed-alignment `bug_unreachable` branch. -/
theorem bestAlignment_divides (p : PixmapView) (r : DriverSupport) (t : Texture)
    (level : Nat) (destPos : Nat × Nat) (wflags : WriteFlags)
    (malloc : Nat → Option (List Nat)) :
    (Texture.bestAlignment p = 1 ∨ Texture.bestAlignment p = 2 ∨
      Texture.bestAlignment p = 4 ∨ Texture.bestAlignment p = 8)
    ∧ Texture.bestAlignment p ∣ p.dataAddr
    ∧ Texture.bestAlignment p ∣ p.pitchBytes
    ∧ Texture.bestAlignment p
        = min (maxPow2DivLe8 p.dataAddr) (maxPow2DivLe8 p.pitchBytes)
    ∧ (t.write r level p destPos wflags malloc).isMisaligned = false := by
  obtain ⟨hd1, hd2⟩ := bestAlignment_dvd p
  refine ⟨bestAlignment_mem p, hd1, hd2, ?_, ?_⟩
  · unfold Texture.bestAlignment unpackAlignForAddrAndPitch
    rw [makeUnpackAlignment_eq, makeUnpackAlignment_eq, Nat.min_comm]
  · unfold Texture.write Texture.writeAligned
    by_cases h0 : t.texName = 0
    · rw [if_pos h0]
      rfl
    · rw [if_neg h0]
      dsimp only
      rw [if_neg (bestAlignment_ne_zero p), if_neg (not_ne_iff.mpr (bestAlignment_mod p))]
      split
      · rfl
      · cases hlk : t.lock level
          ⟨destPos.1, destPos.2, destPos.1 + p.w, destPos.2 + p.h⟩ ⟨false⟩ malloc
        · rfl
        · rfl

/-- On a formatted texture, `write` passes the alignment check and reduces to
the direct-versus-staged branch of `writeAligned`. -/
theorem write_unfold (r : DriverSupport) (t : Texture) (level : Nat) (p : PixmapView)
    (destPos : Nat × Nat) (wflags : WriteFlags) (malloc : Nat → Option (List Nat))
    (ht : t.texName ≠ 0) :
    t.write r level p destPos wflags malloc =
      (if r.hasUnpackRowLength || !p.isPadded then
        WriteResult.direct
          (if wflags.makeMipmaps && t.canUseMipmaps r then
            updateLevelsForMipmapGeneration r t else t)
          (GLCmd.texSubImage2D level destPos.1 destPos.2 p.w p.h p.dataAddr
            :: (if wflags.makeMipmaps && t.canUseMipmaps r then
                [GLCmd.generateMipmapsCmd] else []))
      else
        match t.lock level ⟨destPos.1, destPos.2, destPos.1 + p.w, destPos.2 + p.h⟩
            ⟨false⟩ malloc with
        | none => WriteResult.stagedNoBuffer
        | some lockBuff =>
          WriteResult.staged
            (t.unlock r (some { lockBuff with data := packPixels p }) wflags).1
            { lockBuff with data := packPixels p }
            (t.unlock r (some { lockBuff with data := packPixels p }) wflags).2) := by
  unfold Texture.write Texture.writeAligned
  rw [if_neg ht]
  dsimp only
  rw [if_neg (bestAlignment_ne_zero p), if_neg (not_ne_iff.mpr (bestAlignment_mod p))]

/-- C3: on a formatted texture a `write` takes the direct path — one device
upload command referencing the caller's buffer address in place — exactly
when the backend supports a custom unpack row length or the caller's pixmap
has no inter-row padding (pitch equals width times bytes per pixel);
otherwise it takes the staged path: a locked buffer covering the destination
rectangle at the requested level is allocated, the caller's pixels are copied
into it with the padding removed, and it is uploaded through `unlock`. -/
theorem write_direct_iff (r : DriverSupport) (t : Texture) (level : Nat) (p : PixmapView)
    (destPos : Nat × Nat) (wflags : WriteFlags) (malloc : Nat → Option (List Nat))
    (ht : t.texName ≠ 0) (halloc : ∀ n, (malloc n).isSome) :
    ((∃ t' cmds, t.write r level p destPos wflags malloc = WriteResult.direct t' cmds) ↔
      (r.hasUnpackRowLength = true ∨ p.pitchBytes = p.w * p.format.bytesPerPixel))
    ∧ ((r.hasUnpackRowLength = true ∨ p.pitchBytes = p.w * p.format.bytesPerPixel) →
        ∃ t' cmds, t.write r level p destPos wflags malloc = WriteResult.direct t' cmds
          ∧ cmds.filter GLCmd.isUpload =
            [GLCmd.texSubImage2D level destPos.1 destPos.2 p.w p.h p.dataAddr])
    ∧ (¬(r.hasUnpackRowLength = true ∨ p.pitchBytes = p.w * p.format.bytesPerPixel) →
        ∃ t' buf cmds,
          t.write r level p destPos wflags malloc = WriteResult.staged t' buf cmds
          ∧ buf.pixW = p.w ∧ buf.pixH = p.h ∧ buf.level = level
          ∧ buf.rect = ⟨destPos.1, destPos.2, destPos.1 + p.w, destPos.2 + p.h⟩
          ∧ buf.data = packPixels p
          ∧ cmds.filter GLCmd.isUpload =
            [GLCmd.texSubImage2D level destPos.1 destPos.2 p.w p.h 0]) := by
  have hiff : ((r.hasUnpackRowLength || !p.isPadded) = true) ↔
      (r.hasUnpackRowLength = true ∨ p.pitchBytes = p.w * p.format.bytesPerPixel) := by
    simp [PixmapView.isPadded]
  have hw := write_unfold r t level p destPos wflags malloc ht
  by_cases hc : (r.hasUnpackRowLength || !p.isPadded) = true
  · rw [if_pos hc] at hw
    refine ⟨⟨fun _ => hiff.mp hc, fun _ => ⟨_, _, hw⟩⟩, fun _ => ⟨_, _, hw, ?_⟩,
      fun hn => absurd (hiff.mp hc) hn⟩
    cases hmm : (wflags.makeMipmaps && t.canUseMipmaps r) <;>
      simp [hmm, GLCmd.isUpload]
  · rw [if_neg hc] at hw
    obtain ⟨raw, hraw⟩ := Option.isSome_iff_exists.mp
      (halloc (t.pixDesc.format.bytesPerPixel *
        ((⟨destPos.1, destPos.2, destPos.1 + p.w, destPos.2 + p.h⟩ : WindowRect).xSize *
          (⟨destPos.1, destPos.2, destPos.1 + p.w, destPos.2 + p.h⟩ : WindowRect).ySize)))
    rw [lock_eq t level ⟨destPos.1, destPos.2, destPos.1 + p.w, destPos.2 + p.h⟩
      ⟨false⟩ malloc ht, hraw] at hw
    simp only [Option.map_some'] at hw
    refine ⟨⟨?_, fun hcond => absurd (hiff.mpr hcond) hc⟩,
      fun hcond => absurd (hiff.mpr hcond) hc, fun _ => ⟨_, _, _, hw, ?_, ?_, rfl, rfl, rfl, ?_⟩⟩
    · rintro ⟨t', cmds, heq⟩
      rw [hw] at heq
      exact WriteResult.noConfusion heq
    · simp [WindowRect.xSize]
    · simp [WindowRect.ySize]
    · show ((t.unlock r (some _) wflags).2.filter GLCmd.isUpload) = _
      unfold Texture.unlock
      cases hmm : (wflags.makeMipmaps && t.canUseMipmaps r) <;>
        simp [hmm, GLCmd.isUpload, WindowRect.xSize, WindowRect.ySize]

/-- C3 witness: writing a padded 2x2 pixmap (pitch 3, width times bytes per
pixel 2) on a backend without unpack-row-length support takes the staged
path with the packed copy of the caller's pixels. -/
theorem write_direct_iff_witness :
    ∃ t' buf cmds,
      texSmall.write rMut 0 pixPadded (1, 1) ⟨false, false⟩ mallocOk
        = WriteResult.staged t' buf cmds
      ∧ buf.pixW = pixPadded.w ∧ buf.pixH = pixPadded.h ∧ buf.level = 0
      ∧ buf.rect = ⟨1, 1, 1 + pixPadded.w, 1 + pixPadded.h⟩
      ∧ buf.data = packPixels pixPadded
      ∧ cmds.filter GLCmd.isUpload =
        [GLCmd.texSubImage2D 0 1 1 pixPadded.w pixPadded.h 0] :=
  (write_direct_iff rMut texSmall 0 pixPadded (1, 1) ⟨false, false⟩ mallocOk
    (by decide) mallocOk_isSome).2.2 (by decide)

/-- C7 amended witness: the graceful behaviour instantiated on an unformatted
texture with an immutable-storage backend and nontrivial arguments. -/
theorem unformatted_ops_graceful_witness :
    texUnformatted.generateMipmaps rImm = (false, texUnformatted, [])
    ∧ texUnformatted.writeAligned rImm 1 pixPadded (1, 1) 4 ⟨true, true⟩ mallocOk
        = WriteResult.uninit
    ∧ texUnformatted.lock 1 rectSmall ⟨true⟩ mallocOk = none
    ∧ texUnformatted.bindTex = [] :=
  unformatted_ops_graceful rImm texUnformatted 1 pixPadded (1, 1) 4 ⟨true, true⟩ ⟨true⟩
    rectSmall mallocOk (by decide)

/-- All commands produced by the mutable-storage allocation loop are
`texImage2D` commands, so filtering for them is the identity there. -/
theorem texImageLoop_filter (n i w h : Nat) :
    (texImageLoop n i w h).filter GLCmd.isTexImage = texImageLoop n i w h := by
  refine List.filter_eq_self.mpr fun c hc => ?_
  rw [texImageLoop_eq] at hc
  obtain ⟨j, _, hj⟩ := List.mem_map.mp hc
  rw [← hj]
  rfl

/-- The genTexture command never occurs in the allocation loop. -/
theorem genTexture_not_mem_texImageLoop (n i w h name : Nat) :
    GLCmd.genTexture name ∉ texImageLoop n i w h := by
  intro hmem
  rw [texImageLoop_eq] at hmem
  obtain ⟨j, _, hj⟩ := List.mem_map.mp hmem
  exact GLCmd.noConfusion hj

/-- C8: on a backend without immutable texture storage, `setFormat` creates a
new device handle exactly when the newly computed level count differs from
the texture's current one, and the enqueued allocation calls are one
`texImage2D` per level whose dimensions halve and floor (clamped at 1) level
by level — `max 1 (w / 2 ^ i)` by `max 1 (h / 2 ^ i)` at level `i`, which is
precisely `size(i)` of the freshly formatted texture. -/
theorem setFormat_mutable_alloc (r : DriverSupport) (t : Texture) (desc : PixmapDesc)
    (hint freshName : Nat) (hImm : r.hasImmutableTexStorage = false)
    (hw : 1 ≤ desc.w) (hh : 1 ≤ desc.h) :
    ((GLCmd.genTexture freshName ∈ (t.setFormat r desc hint freshName).2) ↔
      setFormatLevels r desc hint ≠ t.levels_)
    ∧ (t.setFormat r desc hint freshName).1.texName =
        (if setFormatLevels r desc hint = t.levels_ then t.texName else freshName)
    ∧ (t.setFormat r desc hint freshName).2.filter GLCmd.isTexImage =
        ((List.range (setFormatLevels r desc hint)).map fun i =>
          GLCmd.texImage2D i (max 1 (desc.w / 2 ^ i)) (max 1 (desc.h / 2 ^ i)))
    ∧ (∀ i, i < setFormatLevels r desc hint →
        GLCmd.texImage2D i ((t.setFormat r desc hint freshName).1.size i).1
            ((t.setFormat r desc hint freshName).1.size i).2
          ∈ (t.setFormat r desc hint freshName).2) := by
  have hpix : (t.setFormat r desc hint freshName).1.pixDesc = desc :=
    (setFormat_fst r t desc hint freshName).2
  have hloop : texImageLoop (setFormatLevels r desc hint) 0 desc.w desc.h =
      (List.range (setFormatLevels r desc hint)).map fun i =>
        GLCmd.texImage2D i (max 1 (desc.w / 2 ^ i)) (max 1 (desc.h / 2 ^ i)) := by
    rw [texImageLoop_eq]
    refine List.map_congr_left fun j hj => ?_
    rw [Nat.zero_add, halveLoop_eq j desc.w hw, halveLoop_eq j desc.h hh]
  have hres : t.setFormat r desc hint freshName =
      (if setFormatLevels r desc hint = t.levels_ then
        ({ texName := t.texName, levels_ := setFormatLevels r desc hint, pixDesc := desc },
          texImageLoop (setFormatLevels r desc hint) 0 desc.w desc.h)
      else
        ({ texName := freshName, levels_ := setFormatLevels r desc hint, pixDesc := desc },
          GLCmd.genTexture freshName ::
            texImageLoop (setFormatLevels r desc hint) 0 desc.w desc.h)) := by
    unfold Texture.setFormat
    rw [if_neg (by rw [hImm]; exact Bool.false_ne_true)]
  have hsize : ∀ i, (t.setFormat r desc hint freshName).1.size i =
      (max 1 (desc.w / 2 ^ i), max 1 (desc.h / 2 ^ i)) := by
    intro i
    unfold Texture.size
    rw [hpix, halveLoop_eq i desc.w hw, halveLoop_eq i desc.h hh]
  by_cases hlv : setFormatLevels r desc hint = t.levels_
  · refine ⟨?_, ?_, ?_, ?_⟩
    · rw [hres, if_pos hlv]
      constructor
      · intro hmem
        exact absurd hmem (genTexture_not_mem_texImageLoop _ _ _ _ _)
      · intro hne
        exact absurd hlv hne
    · rw [hres, if_pos hlv, if_pos hlv]
    · rw [hres, if_pos hlv]
      show (texImageLoop (setFormatLevels r desc hint) 0 desc.w desc.h).filter _ = _
      rw [texImageLoop_filter, hloop]
    · intro i hi
      rw [hsize i, hres, if_pos hlv]
      show GLCmd.texImage2D i _ _ ∈ texImageLoop (setFormatLevels r desc hint) 0 desc.w desc.h
      rw [hloop]
      exact List.mem_map.mpr ⟨i, List.mem_range.mpr hi, rfl⟩
  · refine ⟨?_, ?_, ?_, ?_⟩
    · rw [hres, if_neg hlv]
      exact ⟨fun _ => hlv, fun _ => List.mem_cons_self _ _⟩
    · rw [hres, if_neg hlv, if_neg hlv]
    · rw [hres, if_neg hlv]
      show (GLCmd.genTexture freshName ::
          texImageLoop (setFormatLevels r desc hint) 0 desc.w desc.h).filter _ = _
      rw [List.filter_cons]
      simp only [show GLCmd.isTexImage (GLCmd.genTexture freshName) = false from rfl,
        Bool.false_eq_true, if_false]
      rw [texImageLoop_filter, hloop]
    · intro i hi
      rw [hsize i, hres, if_neg hlv]
      show GLCmd.texImage2D i _ _ ∈ GLCmd.genTexture freshName ::
        texImageLoop (setFormatLevels r desc hint) 0 desc.w desc.h
      refine List.mem_cons_of_mem _ ?_
      rw [hloop]
      exact List.mem_map.mpr ⟨i, List.mem_range.mpr hi, rfl⟩

/-- C8 witness: reformatting the 7-level (100, 50) texture with an explicit
hint of 3 levels on a mutable-storage backend remakes the handle and issues
three allocation calls with halved-and-floored dimensions. -/
theorem setFormat_mutable_alloc_witness :
    ((GLCmd.genTexture 9 ∈ (tex100.setFormat rMutRow desc100 3 9).2) ↔
      setFormatLevels rMutRow desc100 3 ≠ tex100.levels_)
    ∧ (tex100.setFormat rMutRow desc100 3 9).1.texName =
        (if setFormatLevels rMutRow desc100 3 = tex100.levels_ then tex100.texName else 9)
    ∧ (tex100.setFormat rMutRow desc100 3 9).2.filter GLCmd.isTexImage =
        ((List.range (setFormatLevels rMutRow desc100 3)).map fun i =>
          GLCmd.texImage2D i (max 1 (desc100.w / 2 ^ i)) (max 1 (desc100.h / 2 ^ i)))
    ∧ (∀ i, i < setFormatLevels rMutRow desc100 3 →
        GLCmd.texImage2D i ((tex100.setFormat rMutRow desc100 3 9).1.size i).1
            ((tex100.setFormat rMutRow desc100 3 9).1.size i).2
          ∈ (tex100.setFormat rMutRow desc100 3 9).2) :=
  setFormat_mutable_alloc rMutRow tex100 desc100 3 9 (by decide) (by decide) (by decide)

end IG.Gfx
